import Mathlib

set_option maxRecDepth 8000
set_option maxHeartbeats 1000000

/-!
Verification development for the DEX-Bot market-making engine.

The definitions below are a shallow embedding of the order-placement and
order-maintenance core of `dexbot/strategies/king_of_the_hill.py` and the
boundary-check step of `dexbot/strategies/staggered_orders.py`.

Python `Decimal` and `float` values are modelled as exact rationals (`ℚ`).
`Decimal.quantize(Decimal(0).scaleb(-p))` with the default context rounding
(ROUND_HALF_EVEN) is modelled by `quantize`, built on an integer-valued
round-half-to-even.  A Python `Decimal` division by zero raises
`DivisionByZero`; computations that can raise are modelled with `Option`
(`none` = the call raises and no order is submitted) or with a dedicated
`fault` outcome.
-/

namespace DexBot

/-- Round a rational to the nearest integer, ties to even
(Python Decimal ROUND_HALF_EVEN, the default context rounding). -/
def roundHalfEven (q : ℚ) : ℤ :=
  let f := ⌊q⌋
  let r := q - f
  if r < 1 / 2 then f
  else if 1 / 2 < r then f + 1
  else if f % 2 = 0 then f else f + 1

/-- Model of Python `Decimal(x).quantize(Decimal(0).scaleb(-p))`:
round `x` to `p` fractional decimal digits, half to even. -/
def quantize (x : ℚ) (p : ℕ) : ℚ :=
  (roundHalfEven (x * 10 ^ p) : ℚ) / 10 ^ p

/-- One precision unit of an asset with `p` fractional digits:
Python `Decimal(10) ** -p`. -/
def ulp (p : ℕ) : ℚ := 1 / 10 ^ p

/-- Source `Strategy.is_too_small_amounts` (king_of_the_hill.py, lines
195-208): true iff `amount_quote < 10^-quote_precision` or
`amount_base < 10^-base_precision`. -/
def is_too_small_amounts (amount_quote amount_base : ℚ) (qp bp : ℕ) : Bool :=
  amount_quote < ulp qp || amount_base < ulp bp

/-- Possible outcomes of one `Strategy.place_order` call
(king_of_the_hill.py, lines 210-283), projected on a single side:
* `noRefPrice`: the `if not self.top_xxx_price` guard fired
  (error logged, `self.disabled = True`, no order submitted);
* `zeroAmount`: the configured amount quantized to zero
  (error logged, `self.disabled = True`, no order submitted);
* `fault`: a `Decimal` division by zero is raised
  (the exception propagates out of `place_order`; no order submitted and
  `place_order` itself does not touch the disabled flag);
* `dust`: `is_too_small_amounts` fired (error logged, plain `return`:
  no order submitted and the disabled flag is NOT set);
* `placed amount price`: `place_market_buy_order(float(amount), float(price))`
  (resp. `place_market_sell_order`) is invoked with these arguments. -/
inductive PlaceOutcome where
  | noRefPrice
  | zeroAmount
  | fault
  | dust
  | placed (amount : ℚ) (price : ℚ)
deriving DecidableEq

/-- True iff the outcome submits an order to the market. -/
def placesOrder : PlaceOutcome → Bool
  | .placed _ _ => true
  | _ => false

/-- True iff `place_order` itself sets `self.disabled = True` on this
outcome (lines 218 and 224 for buy, 250 and 256 for sell).  The `dust`
branch (lines 241-243 / 272-274) only logs and returns; a `fault`
propagates as an exception without `place_order` touching the flag. -/
def setsDisabled : PlaceOutcome → Bool
  | .noRefPrice => true
  | .zeroAmount => true
  | _ => false

/-- The buy-side while loop of `place_order` (lines 230-233):

    while price <= self.top_buy_price:
        amount_quote -= Decimal(10) ** -self.market['quote']['precision']
        price = amount_base / amount_quote

`aq = 0` means the division `amount_base / amount_quote` raises
`DivisionByZero` (`none`).  The loop is driven by explicit fuel; the
caller supplies enough fuel to cover every terminating run (the amount
starts as a nonnegative multiple of `u` and decreases by `u` each step,
reaching the zero-division fault if the condition never flips), so
`none` on exhausted fuel corresponds to a run that never submits an
order (it raises, or in pathological regions never returns). -/
def buyLoop (ab C u : ℚ) : ℕ → ℚ → Option ℚ
  | 0, _ => none
  | f + 1, aq =>
    if aq = 0 then none
    else if ab / aq ≤ C then buyLoop ab C u f (aq - u)
    else some aq

/-- The sell-side while loop of `place_order` (lines 262-265):

    while price >= self.top_sell_price:
        amount_base -= Decimal(10) ** -self.market['base']['precision']
        price = amount_base / amount_quote

The divisor `aq` is fixed and nonzero here, so no fault arises inside
the loop; fuel as in `buyLoop`. -/
def sellLoop (aq C u : ℚ) : ℕ → ℚ → Option ℚ
  | 0, _ => none
  | f + 1, ab =>
    if C ≤ ab / aq then sellLoop aq C u f (ab - u)
    else some ab

/-- Buy branch of `Strategy.place_order` (lines 215-246).  Arguments:
`amountBaseRaw` = `self.amount_base` (the configured, possibly
balance-relative, BASE amount), `topBuyPrice` = `self.top_buy_price`,
`upperBound` = `self.upper_bound`, `bp`/`qp` = BASE/QUOTE asset
precisions.  The fuel passed to `buyLoop` is the number of precision
units in the starting amount plus slack, which covers every run of the
source loop that does not raise. -/
def placeOrderBuy (amountBaseRaw topBuyPrice upperBound : ℚ) (bp qp : ℕ) :
    PlaceOutcome :=
  if topBuyPrice = 0 then .noRefPrice
  else
    let amount_base := quantize amountBaseRaw bp
    if amount_base = 0 then .zeroAmount
    else
      let u := ulp qp
      let aq0 := quantize (amount_base / topBuyPrice) qp
      let fuel := (aq0 * 10 ^ qp).num.natAbs + 4
      match buyLoop amount_base topBuyPrice u fuel aq0 with
      | none => .fault
      | some aq =>
        let price := amount_base / aq
        if upperBound < price then
          if upperBound = 0 then .fault
          else
            let aq1 := amount_base / upperBound
            if is_too_small_amounts aq1 amount_base qp bp then .dust
            else .placed aq1 upperBound
        else
          if is_too_small_amounts aq amount_base qp bp then .dust
          else .placed aq price

/-- Sell branch of `Strategy.place_order` (lines 247-277).  Arguments:
`amountQuoteRaw` = `self.amount_quote`, `topSellPrice` =
`self.top_sell_price`, `lowerBound` = `self.lower_bound`, `bp`/`qp` =
BASE/QUOTE asset precisions.  Note the source clamps only the price at
the lower bound; `amount_base` is left as the loop produced it. -/
def placeOrderSell (amountQuoteRaw topSellPrice lowerBound : ℚ) (bp qp : ℕ) :
    PlaceOutcome :=
  if topSellPrice = 0 then .noRefPrice
  else
    let amount_quote := quantize amountQuoteRaw qp
    if amount_quote = 0 then .zeroAmount
    else
      let u := ulp bp
      let ab0 := quantize (amount_quote * topSellPrice) bp
      let fuel := (ab0 * 10 ^ bp).num.natAbs + 4
      match sellLoop amount_quote topSellPrice u fuel ab0 with
      | none => .fault
      | some ab =>
        let price0 := ab / amount_quote
        let price := if price0 < lowerBound then lowerBound else price0
        if is_too_small_amounts amount_quote ab qp bp then .dust
        else .placed amount_quote price

/-- A counter-party order from the order-book snapshot, as used by
`get_top_prices` (the source reads `order['id']`, `order['price']`,
`order['base']['amount']`, `order['quote']['amount']`). -/
structure ForeignOrder where
  id : ℕ
  price : ℚ
  baseAmount : ℚ
  quoteAmount : ℚ
deriving DecidableEq

/-- An own order as returned by the external `get_order` lookup, with the
fields the check phase reads: `order['price']` and the amounts that decide
partial fill. -/
structure OwnOrder where
  price : ℚ
  originalAmount : ℚ
  remainingAmount : ℚ
deriving DecidableEq

/-- The two logical order slots of the king-of-the-hill worker
(the keys of the `self.orders` dict). -/
inductive OrderType where
  | buy
  | sell
deriving DecidableEq

/-- Externally visible effects of one evaluation cycle:
`cancelOrder t` = `self.cancel_orders(order)` for slot `t`;
`invokePlace t` = a call of `self.place_order(t)` (whose own outcome is
modelled by `placeOrderBuy` / `placeOrderSell`). -/
inductive Action where
  | cancelOrder (t : OrderType)
  | invokePlace (t : OrderType)
deriving DecidableEq

/-- `self.mode`: the source compares against the strings
'both' / 'buy' / 'sell'. -/
inductive Mode where
  | both
  | buyOnly
  | sellOnly
deriving DecidableEq

/-- The engine's environment for one evaluation: the external order lookup
(`self.get_order`), the filtered order-book sides as produced by
`filter_buy_orders` / `filter_sell_orders(invert=True)`, the
balance-dependent `amount_base` / `amount_quote` properties, and whether
`self.cancel_orders` succeeds. -/
structure Env where
  lookup : ℕ → Option OwnOrder
  buyOrders : List ForeignOrder
  sellOrders : List ForeignOrder
  amount_base : ℚ
  amount_quote : ℚ
  cancelOk : Bool

/-- The mutable worker state read and written by the maintenance cycle
(`king_of_the_hill.py` `__init__`, lines 60-82).  `fill_threshold` is the
source's `partial_fill_threshold` (initialised to 0.8); timestamps are
modelled as rationals. -/
structure KothState where
  mode : Mode
  orders : List (OrderType × ℕ)
  top_buy_price : ℚ
  top_sell_price : ℚ
  upper_bound : ℚ
  lower_bound : ℚ
  buy_order_to_beat : Option ℕ
  sell_order_to_beat : Option ℕ
  beaten_buy_order : Option ℕ
  beaten_sell_order : Option ℕ
  buy_order_size_threshold : ℚ
  sell_order_size_threshold : ℚ
  fill_threshold : ℚ
  last_check : ℚ
  min_check_interval : ℚ

/-- `self.get_order(x)` where `x` may be the `None` stored in
`beaten_xxx_order` at startup: looking up `None` finds nothing. -/
def lookupOpt (env : Env) : Option ℕ → Option OwnOrder
  | none => none
  | some i => env.lookup i

/-- Modelled from the spec: `is_partially_filled` is defined on
`StrategyBase` in `dexbot/strategies/base.py`, which is not among the
sources; the spec (4.4) defines PartiallyFilled as
`remaining_amount < threshold × original_amount`. -/
def is_partially_filled (o : OwnOrder) (threshold : ℚ) : Bool :=
  o.remainingAmount < threshold * o.originalAmount

/-- Effective buy-side size threshold (`get_top_prices`, lines 160-162):
a falsy (zero) configured threshold falls back to `self.amount_base`. -/
def effBuyThreshold (st : KothState) (env : Env) : ℚ :=
  if st.buy_order_size_threshold = 0 then env.amount_base
  else st.buy_order_size_threshold

/-- Effective sell-side size threshold (`get_top_prices`, lines 156-158):
a falsy (zero) configured threshold falls back to `self.amount_quote`. -/
def effSellThreshold (st : KothState) (env : Env) : ℚ :=
  if st.sell_order_size_threshold = 0 then env.amount_quote
  else st.sell_order_size_threshold

/-- `Strategy.get_top_prices` (lines 145-193): scan each side best-first
for the first foreign order whose size strictly exceeds the effective
threshold; record its price (clamped into the bounds) and its id.  A side
with no qualifying order leaves that side's fields untouched. -/
def get_top_prices (st : KothState) (env : Env) : KothState :=
  let sellThr := effSellThreshold st env
  let buyThr := effBuyThreshold st env
  let st1 :=
    match env.sellOrders.find? (fun o => decide (sellThr < o.quoteAmount)) with
    | some o =>
      { st with
        top_sell_price := if o.price < st.lower_bound then st.lower_bound else o.price,
        sell_order_to_beat := some o.id }
    | none => st
  match env.buyOrders.find? (fun o => decide (buyThr < o.baseAmount)) with
  | some o =>
    { st1 with
      top_buy_price := if st.upper_bound < o.price then st.upper_bound else o.price,
      buy_order_to_beat := some o.id }
  | none => st1

/-- The `need_cancel` decision of `check_orders` (lines 117-135) for a
live own order in slot `t`: partial fill is checked first, then the
beaten-order-vanished check, then the price-beaten check (the sell side
compares the inverted own price against `top_sell_price`). -/
def needCancel (st : KothState) (env : Env) (t : OrderType) (o : OwnOrder) : Bool :=
  if is_partially_filled o st.fill_threshold then true
  else
    match t with
    | .buy =>
      if (lookupOpt env st.beaten_buy_order).isNone then true
      else decide (o.price < st.top_buy_price)
    | .sell =>
      if (lookupOpt env st.beaten_sell_order).isNone then true
      else decide (st.top_sell_price < o.price⁻¹)

/-- One iteration of the `check_orders` loop (lines 113-143) for a single
tracked slot: an unresolvable order id goes straight to replacement
(no cancel); a live order needing intervention is cancelled and, if the
cancel succeeds, replaced; a live order needing nothing is left alone. -/
def checkSlot (st : KothState) (env : Env) (slot : OrderType × ℕ) : List Action :=
  match env.lookup slot.2 with
  | some o =>
    if needCancel st env slot.1 o then
      if env.cancelOk then [.cancelOrder slot.1, .invokePlace slot.1]
      else [.cancelOrder slot.1]
    else []
  | none => [.invokePlace slot.1]

/-- `Strategy.check_orders` (lines 107-143): refresh the top prices, then
process each tracked slot independently (the source iterates over a
deepcopy of `self.orders`, and each slot's decision reads only its own
side's fields). -/
def check_orders (st : KothState) (env : Env) : List Action :=
  st.orders.flatMap (checkSlot (get_top_prices st env) env)

/-- The placement calls made by `Strategy.place_orders`
(lines 285-304), according to the configured mode. -/
def place_orders_actions (st : KothState) : List Action :=
  match st.mode with
  | .both => [.invokePlace .buy, .invokePlace .sell]
  | .buyOnly => [.invokePlace .buy]
  | .sellOnly => [.invokePlace .sell]

/-- `Strategy.maintain_strategy` (lines 92-105): if less than
`min_check_interval` has elapsed since `last_check`, return immediately
(no state change, no action); otherwise check existing orders (or place
fresh ones when none are tracked) and record `last_check = now`. -/
def maintain_strategy (now : ℚ) (st : KothState) (env : Env) :
    KothState × List Action :=
  if now - st.last_check < st.min_check_interval then (st, [])
  else
    let st1 := get_top_prices st env
    ({ st1 with last_check := now },
     if st.orders = [] then place_orders_actions st1 else check_orders st env)

/-- The boundary check of `staggered_orders.py` `maintain_strategy`
(lines 91-95), returning the new `(upper_bound, lower_bound)` pair:

    if market_center_price > self.upper_bound:
        self.upper_bound = market_center_price
    elif market_center_price < self.lower_bound:
        self.lower_bound = market_center_price
-/
def check_boundaries (center ub lb : ℚ) : ℚ × ℚ :=
  if ub < center then (center, lb)
  else if center < lb then (ub, center)
  else (ub, lb)

/-- A sample own order: price 1, original amount 100, remaining 15
(a 15% remainder, well below the default 0.8 partial-fill threshold). -/
def sampleOrder : OwnOrder :=
  { price := 1, originalAmount := 100, remainingAmount := 15 }

/-- A sample environment whose order lookup resolves every id to
`sampleOrder` and whose cancels succeed. -/
def sampleEnv : Env :=
  { lookup := fun _ => some sampleOrder
    buyOrders := []
    sellOrders := []
    amount_base := 1
    amount_quote := 1
    cancelOk := true }

/-- A sample environment whose order lookup resolves nothing and whose
order-book snapshot is empty. -/
def sampleEnvAbsent : Env :=
  { lookup := fun _ => none
    buyOrders := []
    sellOrders := []
    amount_base := 1
    amount_quote := 1
    cancelOk := true }

/-- A sample worker state tracking one buy and one sell slot, with set
top prices, the default 0.8 fill threshold and a 1-second minimum check
interval. -/
def sampleState : KothState :=
  { mode := .both
    orders := [(.buy, 1), (.sell, 2)]
    top_buy_price := 5
    top_sell_price := 6
    upper_bound := 10
    lower_bound := 1
    buy_order_to_beat := some 7
    sell_order_to_beat := some 8
    beaten_buy_order := some 7
    beaten_sell_order := some 8
    buy_order_size_threshold := 1
    sell_order_size_threshold := 1
    fill_threshold := 8/10
    last_check := 0
    min_check_interval := 1 }

end DexBot

namespace DexBot

/-- Round-half-to-even of an integer is that integer. -/
theorem roundHalfEven_intCast (n : ℤ) : roundHalfEven (n : ℚ) = n := by
  unfold roundHalfEven
  simp only [Int.floor_intCast, sub_self]
  norm_num

/-- A successful buy-side loop exit means the derived price strictly
exceeds the competitor price. -/
theorem buyLoop_some_lt (ab C u : ℚ) :
    ∀ f aq aq', buyLoop ab C u f aq = some aq' → C < ab / aq' := by
  intro f
  induction f with
  | zero => intro aq aq' h; simp [buyLoop] at h
  | succ n ih =>
    intro aq aq' h
    rw [buyLoop] at h
    by_cases h0 : aq = 0
    · simp [h0] at h
    · rw [if_neg h0] at h
      by_cases h1 : ab / aq ≤ C
      · rw [if_pos h1] at h
        exact ih _ _ h
      · rw [if_neg h1] at h
        cases h
        exact lt_of_not_le h1

/-- A successful sell-side loop exit means the derived price is strictly
below the competitor price. -/
theorem sellLoop_some_lt (aq C u : ℚ) :
    ∀ f ab ab', sellLoop aq C u f ab = some ab' → ab' / aq < C := by
  intro f
  induction f with
  | zero => intro ab ab' h; simp [sellLoop] at h
  | succ n ih =>
    intro ab ab' h
    rw [sellLoop] at h
    by_cases h1 : C ≤ ab / aq
    · rw [if_pos h1] at h
      exact ih _ _ h
    · rw [if_neg h1] at h
      cases h
      exact lt_of_not_le h1

/-- C1, counterexample.  The claim requires the submitted buy price to
exceed the competitor price by at least one quote-precision increment.
With base and quote precision 1, configured base amount 10, competitor
price 2 and upper bound 100, `place_order('buy')` submits amount 4.9 at
price 100/49 ≈ 2.0408, which exceeds 2 by less than the increment 0.1. -/
theorem koth_one_increment_margin_cex :
    placeOrderBuy 10 2 100 1 1 = .placed (49/10) (100/49) ∧
    (2:ℚ) < 100/49 ∧ ¬ (2 + ulp 1 ≤ (100:ℚ)/49) := by
  refine ⟨?_, by norm_num, by norm_num [ulp]⟩
  norm_num [placeOrderBuy, quantize, roundHalfEven, buyLoop, ulp,
    is_too_small_amounts]

/-- C1, amended.  Every order actually submitted by `place_order` beats
the competitor price strictly — though not necessarily by a full
precision increment — except that the bound clamp may land the price
exactly on the competitor price when the competitor price coincides with
the bound: on the buy side, if `top_buy_price ≤ upper_bound` (which
`get_top_prices` guarantees for prices it stores), the submitted price
`P` satisfies `C ≤ P ≤ upper_bound`, with `C < P` whenever
`C < upper_bound`; symmetrically, on the sell side with
`lower_bound ≤ top_sell_price`, `lower_bound ≤ P ≤ C` with `P < C`
whenever `lower_bound < C`. -/
theorem koth_competitive_price_within_bounds :
    (∀ abRaw C ub : ℚ, ∀ bp qp : ℕ, ∀ aq P : ℚ, C ≤ ub →
       placeOrderBuy abRaw C ub bp qp = .placed aq P →
       C ≤ P ∧ P ≤ ub ∧ (C < ub → C < P)) ∧
    (∀ aqRaw C lb : ℚ, ∀ bp qp : ℕ, ∀ ab P : ℚ, lb ≤ C →
       placeOrderSell aqRaw C lb bp qp = .placed ab P →
       lb ≤ P ∧ P ≤ C ∧ (lb < C → P < C)) := by
  constructor
  · intro abRaw C ub bp qp aq P hub hres
    simp only [placeOrderBuy] at hres
    split at hres
    · exact absurd hres (by simp)
    split at hres
    · exact absurd hres (by simp)
    split at hres
    · exact absurd hres (by simp)
    rename_i aq1 hloop
    have hgt : C < quantize abRaw bp / aq1 := buyLoop_some_lt _ _ _ _ _ _ hloop
    split at hres
    · split at hres
      · exact absurd hres (by simp)
      split at hres
      · exact absurd hres (by simp)
      cases hres
      exact ⟨hub, le_refl _, fun h => h⟩
    · rename_i hclamp
      split at hres
      · exact absurd hres (by simp)
      cases hres
      exact ⟨le_of_lt hgt, le_of_not_lt hclamp, fun _ => hgt⟩
  · intro aqRaw C lb bp qp ab P hlb hres
    simp only [placeOrderSell] at hres
    split at hres
    · exact absurd hres (by simp)
    split at hres
    · exact absurd hres (by simp)
    split at hres
    · exact absurd hres (by simp)
    rename_i ab1 hloop
    have hlt : ab1 / quantize aqRaw qp < C := sellLoop_some_lt _ _ _ _ _ _ hloop
    split at hres
    · exact absurd hres (by simp)
    cases hres
    by_cases hcl : ab1 / quantize aqRaw qp < lb
    · rw [if_pos hcl]
      exact ⟨le_refl _, hlb, fun h => h⟩
    · rw [if_neg hcl]
      exact ⟨le_of_not_lt hcl, le_of_lt hlt, fun _ => hlt⟩

/-- Witness for C1's amended theorem: concrete buy and sell placements
(the buy run of the counterexample input and a sell run with competitor
price 2 and lower bound 1/2). -/
theorem koth_competitive_price_within_bounds_witness :
    ((2:ℚ) ≤ 100/49 ∧ (100:ℚ)/49 ≤ 100 ∧ ((2:ℚ) < 100 → (2:ℚ) < 100/49)) ∧
    ((1:ℚ)/2 ≤ 199/100 ∧ (199:ℚ)/100 ≤ 2 ∧ ((1:ℚ)/2 < 2 → (199:ℚ)/100 < 2)) :=
  ⟨koth_competitive_price_within_bounds.1 10 2 100 1 1 (49/10) (100/49)
      (by norm_num)
      (by norm_num [placeOrderBuy, quantize, roundHalfEven, buyLoop, ulp,
        is_too_small_amounts]),
   koth_competitive_price_within_bounds.2 10 2 (1/2) 1 1 10 (199/100)
      (by norm_num)
      (by norm_num [placeOrderSell, quantize, roundHalfEven, sellLoop, ulp,
        is_too_small_amounts])⟩

/-- C2.  The decrease-amount loop is not defensively bounded: with base
precision 1, quote precision 2, configured base amount 0.1, competitor
price 10 and upper bound 100, the quote amount starts at 0.01, one
decrement brings it to exactly 0, and the source raises
`decimal.DivisionByZero` at `price = amount_base / amount_quote` instead
of reporting a dust error. -/
theorem koth_buy_loop_zero_division :
    placeOrderBuy (1/10) 10 100 1 2 = .fault := by
  norm_num [placeOrderBuy, quantize, roundHalfEven, buyLoop, ulp,
    is_too_small_amounts]

/-- C3, counterexample.  With quote and base precision 2, configured
quote amount 0.01, competitor price 0.4 and lower bound 0.1,
`place_order('sell')` quantizes `amount_base` to 0, the loop exits at
once, the dust check fires — and the source merely logs and returns:
no order is placed but the disabled flag is NOT set, contradicting the
claim that the dust condition is fatal. -/
theorem koth_dust_not_disabling_cex :
    placeOrderSell (1/100) (2/5) (1/10) 2 2 = .dust ∧
    placesOrder (placeOrderSell (1/100) (2/5) (1/10) 2 2) = false ∧
    setsDisabled (placeOrderSell (1/100) (2/5) (1/10) 2 2) = false := by
  have h : placeOrderSell (1/100) (2/5) (1/10) 2 2 = .dust := by
    norm_num [placeOrderSell, quantize, roundHalfEven, sellLoop, ulp,
      is_too_small_amounts]
  exact ⟨h, by rw [h]; rfl, by rw [h]; rfl⟩

/-- C3, amended.  If the configured amount quantizes to zero, no order
is placed and the worker is disabled; but if the final quantized amounts
fail the dust check — on either side — the order is skipped with only a
logged error and the disabled flag is left untouched. -/
theorem koth_zero_amount_disables_dust_skips :
    (∀ abRaw C ub : ℚ, ∀ bp qp : ℕ, C ≠ 0 → quantize abRaw bp = 0 →
       placeOrderBuy abRaw C ub bp qp = .zeroAmount ∧
       placesOrder (placeOrderBuy abRaw C ub bp qp) = false ∧
       setsDisabled (placeOrderBuy abRaw C ub bp qp) = true) ∧
    (∀ aqRaw C lb : ℚ, ∀ bp qp : ℕ, C ≠ 0 → quantize aqRaw qp = 0 →
       placeOrderSell aqRaw C lb bp qp = .zeroAmount ∧
       placesOrder (placeOrderSell aqRaw C lb bp qp) = false ∧
       setsDisabled (placeOrderSell aqRaw C lb bp qp) = true) ∧
    (∀ abRaw C ub : ℚ, ∀ bp qp : ℕ,
       placeOrderBuy abRaw C ub bp qp = .dust →
       placesOrder (placeOrderBuy abRaw C ub bp qp) = false ∧
       setsDisabled (placeOrderBuy abRaw C ub bp qp) = false) ∧
    (∀ aqRaw C lb : ℚ, ∀ bp qp : ℕ,
       placeOrderSell aqRaw C lb bp qp = .dust →
       placesOrder (placeOrderSell aqRaw C lb bp qp) = false ∧
       setsDisabled (placeOrderSell aqRaw C lb bp qp) = false) := by
  refine ⟨?_, ?_, ?_, ?_⟩
  · intro abRaw C ub bp qp hC hq
    have h : placeOrderBuy abRaw C ub bp qp = .zeroAmount := by
      simp [placeOrderBuy, hC, hq]
    exact ⟨h, by rw [h]; rfl, by rw [h]; rfl⟩
  · intro aqRaw C lb bp qp hC hq
    have h : placeOrderSell aqRaw C lb bp qp = .zeroAmount := by
      simp [placeOrderSell, hC, hq]
    exact ⟨h, by rw [h]; rfl, by rw [h]; rfl⟩
  · intro abRaw C ub bp qp h
    exact ⟨by rw [h]; rfl, by rw [h]; rfl⟩
  · intro aqRaw C lb bp qp h
    exact ⟨by rw [h]; rfl, by rw [h]; rfl⟩

/-- Witness for C3's amended theorem: a buy and a sell whose configured
amount 0.001 quantizes to zero at precision 2; a buy dust-skip run
(precisions 0, amount 1, competitor price 1/2, upper bound −1, where the
clamp drives the quote amount to −1 and the dust check fires); and the
dust-skipping sell run of the counterexample. -/
theorem koth_zero_amount_disables_dust_skips_witness :
    (placeOrderBuy (1/1000) 1 100 2 2 = .zeroAmount ∧
     placesOrder (placeOrderBuy (1/1000) 1 100 2 2) = false ∧
     setsDisabled (placeOrderBuy (1/1000) 1 100 2 2) = true) ∧
    (placeOrderSell (1/1000) 1 (1/2) 2 2 = .zeroAmount ∧
     placesOrder (placeOrderSell (1/1000) 1 (1/2) 2 2) = false ∧
     setsDisabled (placeOrderSell (1/1000) 1 (1/2) 2 2) = true) ∧
    (placesOrder (placeOrderBuy 1 (1/2) (-1) 0 0) = false ∧
     setsDisabled (placeOrderBuy 1 (1/2) (-1) 0 0) = false) ∧
    (placesOrder (placeOrderSell (1/100) (2/5) (1/10) 2 2) = false ∧
     setsDisabled (placeOrderSell (1/100) (2/5) (1/10) 2 2) = false) :=
  ⟨koth_zero_amount_disables_dust_skips.1 (1/1000) 1 100 2 2 (by norm_num)
      (by norm_num [quantize, roundHalfEven]),
   koth_zero_amount_disables_dust_skips.2.1 (1/1000) 1 (1/2) 2 2 (by norm_num)
      (by norm_num [quantize, roundHalfEven]),
   koth_zero_amount_disables_dust_skips.2.2.1 1 (1/2) (-1) 0 0
      (by norm_num [placeOrderBuy, quantize, roundHalfEven, buyLoop, ulp,
        is_too_small_amounts]),
   koth_zero_amount_disables_dust_skips.2.2.2 (1/100) (2/5) (1/10) 2 2
      (by norm_num [placeOrderSell, quantize, roundHalfEven, sellLoop, ulp,
        is_too_small_amounts])⟩

/-- C4.  When the stored top price of the requested side is unset (zero),
`place_order` refuses: no order is submitted and the disabled flag is
set, on both sides. -/
theorem koth_no_reference_price_refusal :
    (∀ abRaw ub : ℚ, ∀ bp qp : ℕ,
       placeOrderBuy abRaw 0 ub bp qp = .noRefPrice ∧
       placesOrder (placeOrderBuy abRaw 0 ub bp qp) = false ∧
       setsDisabled (placeOrderBuy abRaw 0 ub bp qp) = true) ∧
    (∀ aqRaw lb : ℚ, ∀ bp qp : ℕ,
       placeOrderSell aqRaw 0 lb bp qp = .noRefPrice ∧
       placesOrder (placeOrderSell aqRaw 0 lb bp qp) = false ∧
       setsDisabled (placeOrderSell aqRaw 0 lb bp qp) = true) := by
  constructor
  · intro abRaw ub bp qp
    simp [placeOrderBuy, placesOrder, setsDisabled]
  · intro aqRaw lb bp qp
    simp [placeOrderSell, placesOrder, setsDisabled]

/-- C5.  A tracked live order whose remaining amount is strictly below
`fill_threshold` times its original amount is reported partially filled,
and the check phase cancels it and (the cancel succeeding) invokes a
replacement placement for that slot. -/
theorem koth_partial_fill_cancel_replace (st : KothState) (env : Env)
    (t : OrderType) (oid : ℕ) (o : OwnOrder)
    (hlook : env.lookup oid = some o)
    (hrem : o.remainingAmount < st.fill_threshold * o.originalAmount)
    (hcancel : env.cancelOk = true) :
    is_partially_filled o st.fill_threshold = true ∧
    checkSlot st env (t, oid) = [.cancelOrder t, .invokePlace t] := by
  have hpf : is_partially_filled o st.fill_threshold = true := by
    simp [is_partially_filled]
    exact hrem
  refine ⟨hpf, ?_⟩
  simp [checkSlot, hlook, needCancel, hpf, hcancel]

/-- Witness for C5: the sample order is 15% remaining against the 0.8
threshold, so the buy slot is cancelled and replaced. -/
theorem koth_partial_fill_cancel_replace_witness :
    is_partially_filled sampleOrder sampleState.fill_threshold = true ∧
    checkSlot sampleState sampleEnv (OrderType.buy, 1) =
      [.cancelOrder OrderType.buy, .invokePlace OrderType.buy] :=
  koth_partial_fill_cancel_replace sampleState sampleEnv OrderType.buy 1
    sampleOrder rfl (by norm_num [sampleOrder, sampleState]) rfl

/-- C6.  A tracked slot whose order id no longer resolves through the
external lookup is handled by immediately invoking a replacement
placement for that slot, with no cancel; and within a check cycle it
contributes exactly that one action, the remaining slots being processed
exactly as they would be on their own. -/
theorem koth_absent_slot_replaced_alone (st : KothState) (env : Env)
    (t : OrderType) (oid : ℕ) (h : env.lookup oid = none) :
    (∀ st2 : KothState, checkSlot st2 env (t, oid) = [Action.invokePlace t]) ∧
    (∀ rest, st.orders = (t, oid) :: rest →
       check_orders st env =
         Action.invokePlace t ::
           rest.flatMap (checkSlot (get_top_prices st env) env)) := by
  constructor
  · intro st2
    simp [checkSlot, h]
  · intro rest hrest
    simp [check_orders, hrest, checkSlot, h]

/-- Witness for C6: with a lookup that resolves nothing, the buy slot of
the sample state is replaced without a cancel and the sell slot is left
to its own processing. -/
theorem koth_absent_slot_replaced_alone_witness :
    checkSlot sampleState sampleEnvAbsent (OrderType.buy, 1) =
      [Action.invokePlace OrderType.buy] ∧
    check_orders sampleState sampleEnvAbsent =
      Action.invokePlace OrderType.buy ::
        [(OrderType.sell, 2)].flatMap
          (checkSlot (get_top_prices sampleState sampleEnvAbsent)
            sampleEnvAbsent) :=
  ⟨(koth_absent_slot_replaced_alone sampleState sampleEnvAbsent
      OrderType.buy 1 rfl).1 sampleState,
   (koth_absent_slot_replaced_alone sampleState sampleEnvAbsent
      OrderType.buy 1 rfl).2 [(OrderType.sell, 2)] rfl⟩

/-- C7.  A maintenance invocation arriving before `min_check_interval`
has elapsed since `last_check` is a complete no-op: the state is
returned unchanged and no check, cancel or placement action happens. -/
theorem koth_throttle_noop (now : ℚ) (st : KothState) (env : Env)
    (h : now - st.last_check < st.min_check_interval) :
    maintain_strategy now st env = (st, []) := by
  rw [maintain_strategy, if_pos h]

/-- Witness for C7: an invocation at time 0 against the sample state
(last checked at 0, minimum interval 1) changes nothing. -/
theorem koth_throttle_noop_witness :
    maintain_strategy 0 sampleState sampleEnv = (sampleState, []) :=
  koth_throttle_noop 0 sampleState sampleEnv (by norm_num [sampleState])

/-- C8.  The staggered-orders boundary check follows the recomputed
center price outward: a center price above the upper bound raises the
upper bound to it, and a center price below the lower bound (the upper
bound not being exceeded) lowers the lower bound to it; the center price
is never clamped into the old range. -/
theorem staggered_bounds_follow_center (center ub lb : ℚ) :
    (ub < center → check_boundaries center ub lb = (center, lb)) ∧
    (¬ ub < center → center < lb → check_boundaries center ub lb = (ub, center)) := by
  constructor
  · intro h
    rw [check_boundaries, if_pos h]
  · intro h1 h2
    rw [check_boundaries, if_neg h1, if_pos h2]

/-- Witness for C8: center 5 against bounds [1, 3] raises the upper
bound to 5; center 0 against bounds [1, 3] lowers the lower bound to 0. -/
theorem staggered_bounds_follow_center_witness :
    check_boundaries 5 3 1 = (5, 1) ∧ check_boundaries 0 3 1 = (3, 0) :=
  ⟨(staggered_bounds_follow_center 5 3 1).1 (by norm_num),
   (staggered_bounds_follow_center 0 3 1).2 (by norm_num) (by norm_num)⟩

/-- C9.  The quantization used by `place_order` to round amounts to
asset precision is idempotent. -/
theorem quantize_idempotent (x : ℚ) (p : ℕ) :
    quantize (quantize x p) p = quantize x p := by
  unfold quantize
  rw [div_mul_cancel₀ _ (pow_ne_zero p (by norm_num : (10:ℚ) ≠ 0))]
  rw [roundHalfEven_intCast]

/-- C10.  If no foreign order on a side strictly exceeds that side's
effective size threshold, `get_top_prices` leaves that side's top price
and order-to-beat untouched; and `place_order` then runs against the
stale stored price, refusing with the no-reference-price error exactly
when the stored price is still the unset zero. -/
theorem koth_top_prices_frame_stale_reuse (st : KothState) (env : Env) :
    ((∀ o ∈ env.buyOrders, o.baseAmount ≤ effBuyThreshold st env) →
       (get_top_prices st env).top_buy_price = st.top_buy_price ∧
       (get_top_prices st env).buy_order_to_beat = st.buy_order_to_beat) ∧
    ((∀ o ∈ env.sellOrders, o.quoteAmount ≤ effSellThreshold st env) →
       (get_top_prices st env).top_sell_price = st.top_sell_price ∧
       (get_top_prices st env).sell_order_to_beat = st.sell_order_to_beat) ∧
    (∀ abRaw ub : ℚ, ∀ bp qp : ℕ, st.top_buy_price ≠ 0 →
       placeOrderBuy abRaw st.top_buy_price ub bp qp ≠ .noRefPrice) ∧
    (∀ aqRaw lb : ℚ, ∀ bp qp : ℕ, st.top_sell_price ≠ 0 →
       placeOrderSell aqRaw st.top_sell_price lb bp qp ≠ .noRefPrice) := by
  refine ⟨?_, ?_, ?_, ?_⟩
  · intro h
    have hb : env.buyOrders.find?
        (fun o => decide (effBuyThreshold st env < o.baseAmount)) = none := by
      rw [List.find?_eq_none]
      intro x hx
      simpa using not_lt.mpr (h x hx)
    unfold get_top_prices
    cases hs : env.sellOrders.find?
        (fun o => decide (effSellThreshold st env < o.quoteAmount)) <;>
      simp [hb, hs]
  · intro h
    have hs : env.sellOrders.find?
        (fun o => decide (effSellThreshold st env < o.quoteAmount)) = none := by
      rw [List.find?_eq_none]
      intro x hx
      simpa using not_lt.mpr (h x hx)
    unfold get_top_prices
    cases hb : env.buyOrders.find?
        (fun o => decide (effBuyThreshold st env < o.baseAmount)) <;>
      simp [hb, hs]
  · intro abRaw ub bp qp h
    simp only [placeOrderBuy, if_neg h]
    split
    · simp
    · split
      · simp
      · split
        · split
          · simp
          · split <;> simp
        · split <;> simp
  · intro aqRaw lb bp qp h
    simp only [placeOrderSell, if_neg h]
    split
    · simp
    · split
      · simp
      · split <;> simp

/-- Witness for C10: an empty snapshot leaves the sample state's top
prices and orders-to-beat unchanged, and `place_order` on the stored
nonzero prices does not refuse for lack of a reference price. -/
theorem koth_top_prices_frame_stale_reuse_witness :
    ((get_top_prices sampleState sampleEnvAbsent).top_buy_price =
        sampleState.top_buy_price ∧
     (get_top_prices sampleState sampleEnvAbsent).buy_order_to_beat =
        sampleState.buy_order_to_beat) ∧
    ((get_top_prices sampleState sampleEnvAbsent).top_sell_price =
        sampleState.top_sell_price ∧
     (get_top_prices sampleState sampleEnvAbsent).sell_order_to_beat =
        sampleState.sell_order_to_beat) ∧
    placeOrderBuy 3 sampleState.top_buy_price 10 2 2 ≠ .noRefPrice ∧
    placeOrderSell 3 sampleState.top_sell_price 1 2 2 ≠ .noRefPrice :=
  ⟨(koth_top_prices_frame_stale_reuse sampleState sampleEnvAbsent).1
      (by simp [sampleEnvAbsent]),
   (koth_top_prices_frame_stale_reuse sampleState sampleEnvAbsent).2.1
      (by simp [sampleEnvAbsent]),
   (koth_top_prices_frame_stale_reuse sampleState sampleEnvAbsent).2.2.1
      3 10 2 2 (by norm_num [sampleState]),
   (koth_top_prices_frame_stale_reuse sampleState sampleEnvAbsent).2.2.2
      3 1 2 2 (by norm_num [sampleState])⟩

end DexBot
